import Mathlib

/-!
Verification of the dosing-control core of the pioreactor/morbidostat
repository, shallowly embedded in Lean 4.

The embedding follows `src/morbidostat/background_jobs/io_controlling.py`
(pump primitive `execute_io_action`, `ControlAlgorithm.run` /
`set_OD_measurements`, and the `Turbidostat`, `Morbidostat`,
`PIDMorbidostat` algorithms) and
`src/pioreactor/background_jobs/base.py` (`subscribe_and_callback`,
`set_attr_from_message`).

Python floats are modelled as rationals (`ℚ`); the literal `1e-5` is the
exact rational `1/100000` and `0.5` is `1/2`.  Calls into the pump
drivers are recorded as a trace (`List PumpAction`); an uncaught Python
exception (a failed `assert`, an uncaught `ValueError`) is an
`Except.error` / explicit error result.
-/

namespace IoControlling

/-- A call into one of the external pump drivers, as performed by the
terminal leg of `execute_io_action` (io_controlling.py lines 108-114).
The constructor `publish_io_batched` is part of the trace vocabulary so
that publication claims can be stated; this revision of
`execute_io_action` never emits it (the function contains no `publish`
call and has no `log` parameter). -/
inductive PumpAction
  | add_alt_media (ml : ℚ)
  | add_media (ml : ℚ)
  | remove_waste (ml : ℚ)
  | publish_io_batched
deriving DecidableEq

/-- Helper for the termination of `execute_io_action`: halving a
`waste_ml` that is above the `0.5` threshold strictly decreases the
measure `⌈2 * waste_ml⌉₊`. -/
theorem ceil_two_mul_half_lt {w : ℚ} (hw : 1/2 < w) : ⌈w⌉₊ < ⌈2 * w⌉₊ := by
  rw [Nat.lt_ceil]
  rcases le_or_lt w 1 with h1 | h1
  · have hnat : ⌈w⌉₊ ≤ 1 := Nat.ceil_le.mpr (by exact_mod_cast h1)
    have hle : (⌈w⌉₊ : ℚ) ≤ 1 := by exact_mod_cast hnat
    linarith
  · have hlt : (⌈w⌉₊ : ℚ) < w + 1 := Nat.ceil_lt_add_one (by linarith)
    linarith

/-- `ControlAlgorithm.execute_io_action` (io_controlling.py lines
97-114).  The Python `assert abs(alt_media_ml + media_ml - waste_ml) <
1e-5` is the `Except.error` branch; when `waste_ml > 0.5` the function
calls itself twice with all three volumes halved; otherwise it drives
the pumps in the fixed order alt media, media, waste (each only when its
volume is positive).  The returned trace is the concatenation of
sub-traces, and a raised assertion in a sub-call propagates (the second
sub-call does not run if the first raised). -/
def execute_io_action (alt_media_ml media_ml waste_ml : ℚ) :
    Except String (List PumpAction) :=
  if _h1 : |alt_media_ml + media_ml - waste_ml| < 1/100000 then
    if h2 : 1/2 < waste_ml then
      match execute_io_action (alt_media_ml / 2) (media_ml / 2) (waste_ml / 2) with
      | Except.error e => Except.error e
      | Except.ok l =>
        match execute_io_action (alt_media_ml / 2) (media_ml / 2) (waste_ml / 2) with
        | Except.error e => Except.error e
        | Except.ok r => Except.ok (l ++ r)
    else
      Except.ok
        ((if 0 < alt_media_ml then [PumpAction.add_alt_media alt_media_ml] else []) ++
         (if 0 < media_ml then [PumpAction.add_media media_ml] else []) ++
         (if 0 < waste_ml then [PumpAction.remove_waste waste_ml] else []))
  else
    Except.error "in order to keep same volume, IO should be equal."
termination_by ⌈2 * waste_ml⌉₊
decreasing_by
  all_goals
    have hhalf : (2 : ℚ) * (waste_ml / 2) = waste_ml := by ring
    rw [hhalf]
    exact ceil_two_mul_half_lt h2

/-- Fuel-indexed evaluator for `execute_io_action`: the same branching
as the source, except that each level of recursion consumes one unit of
fuel and exhausted fuel returns `none`.  It witnesses that the Python
recursion reaches its terminal branch after finitely many halvings. -/
def executeIoFuel : ℕ → ℚ → ℚ → ℚ → Option (Except String (List PumpAction))
  | 0, _, _, _ => none
  | fuel + 1, alt_media_ml, media_ml, waste_ml =>
    if |alt_media_ml + media_ml - waste_ml| < 1/100000 then
      if 1/2 < waste_ml then
        match executeIoFuel fuel (alt_media_ml / 2) (media_ml / 2) (waste_ml / 2) with
        | none => none
        | some (Except.error e) => some (Except.error e)
        | some (Except.ok l) =>
          match executeIoFuel fuel (alt_media_ml / 2) (media_ml / 2) (waste_ml / 2) with
          | none => none
          | some (Except.error e) => some (Except.error e)
          | some (Except.ok r) => some (Except.ok (l ++ r))
      else
        some (Except.ok
          ((if 0 < alt_media_ml then [PumpAction.add_alt_media alt_media_ml] else []) ++
           (if 0 < media_ml then [PumpAction.add_media media_ml] else []) ++
           (if 0 < waste_ml then [PumpAction.remove_waste waste_ml] else [])))
    else
      some (Except.error "in order to keep same volume, IO should be equal.")

/-- With fuel at least `⌈2 * waste_ml⌉₊ + 1`, the fuel-indexed evaluator
returns `some` of the value of `execute_io_action`: the recursion depth
of the source function is bounded. -/
theorem executeIoFuel_eq (fuel : ℕ) :
    ∀ a m w : ℚ, ⌈2 * w⌉₊ ≤ fuel →
      executeIoFuel (fuel + 1) a m w = some (execute_io_action a m w) := by
  induction fuel with
  | zero =>
    intro a m w hw
    have hw0 : 2 * w ≤ (0 : ℚ) := by
      exact_mod_cast Nat.ceil_le.mp hw
    have hnot : ¬ (1/2 : ℚ) < w := by intro hc; linarith
    rw [execute_io_action.eq_def, executeIoFuel.eq_2]
    by_cases h1 : |a + m - w| < 1/100000
    · rw [if_pos h1, if_neg hnot, dif_pos h1, dif_neg hnot]
    · rw [if_neg h1, dif_neg h1]
  | succ fuel ih =>
    intro a m w hw
    rw [execute_io_action.eq_def, executeIoFuel.eq_2]
    by_cases h1 : |a + m - w| < 1/100000
    · by_cases h2 : (1/2 : ℚ) < w
      · have hmeas : ⌈2 * (w / 2)⌉₊ ≤ fuel := by
          have hh : (2 : ℚ) * (w / 2) = w := by ring
          rw [hh]
          have hlt : ⌈w⌉₊ < ⌈2 * w⌉₊ := ceil_two_mul_half_lt h2
          omega
        rw [if_pos h1, if_pos h2, dif_pos h1, dif_pos h2,
            ih (a / 2) (m / 2) (w / 2) hmeas]
        cases execute_io_action (a / 2) (m / 2) (w / 2) with
        | error e => rfl
        | ok l => rfl
      · rw [if_pos h1, if_neg h2, dif_pos h1, dif_neg h2]
    · rw [if_neg h1, dif_neg h1]

/-- Transfer lemma used to evaluate `execute_io_action` (a well-founded
recursion) on concrete inputs through the structurally recursive
`executeIoFuel`. -/
theorem execute_io_action_eq_of_fuel {fuel : ℕ} {a m w : ℚ}
    {x : Except String (List PumpAction)}
    (hw : ⌈2 * w⌉₊ ≤ fuel) (hx : executeIoFuel (fuel + 1) a m w = some x) :
    execute_io_action a m w = x := by
  have h := executeIoFuel_eq fuel a m w hw
  rw [hx] at h
  exact (Option.some.inj h).symm

/-- Halving all three volumes preserves the conservation invariant
(io_controlling.py line 99): `|a/2 + m/2 - w/2| = |a + m - w| / 2`. -/
theorem abs_half_lt {a m w : ℚ} (h : |a + m - w| < 1/100000) :
    |a / 2 + m / 2 - w / 2| < 1/100000 := by
  have heq : a / 2 + m / 2 - w / 2 = (a + m - w) / 2 := by ring
  rw [heq]
  calc |(a + m - w) / 2| = |a + m - w| / 2 := by
        rw [abs_div]; norm_num
    _ ≤ |a + m - w| := half_le_self (abs_nonneg _)
    _ < 1/100000 := h

/-- Fuel-level version of the safety direction: when the conservation
invariant holds at the top call, every result the evaluator produces is
an `ok` trace. -/
theorem executeIoFuel_ok_of_inv (fuel : ℕ) :
    ∀ a m w : ℚ, |a + m - w| < 1/100000 →
      ∀ x, executeIoFuel fuel a m w = some x →
        ∃ l, x = Except.ok l := by
  induction fuel with
  | zero =>
    intro a m w _ x hx
    exact Option.noConfusion hx
  | succ fuel ih =>
    intro a m w h1 x hx
    simp only [executeIoFuel] at hx
    rw [if_pos h1] at hx
    by_cases h2 : (1/2 : ℚ) < w
    · rw [if_pos h2] at hx
      cases hsub : executeIoFuel fuel (a / 2) (m / 2) (w / 2) with
      | none => rw [hsub] at hx; exact Option.noConfusion hx
      | some r1 =>
        obtain ⟨l1, rfl⟩ := ih (a / 2) (m / 2) (w / 2) (abs_half_lt h1) r1 hsub
        rw [hsub] at hx
        exact ⟨l1 ++ l1, (Option.some.inj hx).symm⟩
    · rw [if_neg h2] at hx
      exact ⟨_, (Option.some.inj hx).symm⟩

/-- If the conservation invariant holds at the top call, no assertion
fires in the call or in any recursive sub-call, and a trace is
returned. -/
theorem execute_io_action_ok_of_inv (a m w : ℚ)
    (h : |a + m - w| < 1/100000) :
    ∃ l, execute_io_action a m w = Except.ok l := by
  have hf := executeIoFuel_eq ⌈2 * w⌉₊ a m w le_rfl
  obtain ⟨l, hl⟩ := executeIoFuel_ok_of_inv _ a m w h _ hf
  exact ⟨l, hl⟩

/-- If the conservation invariant fails, the assertion fires
immediately. -/
theorem execute_io_action_error_of_not {a m w : ℚ}
    (h : ¬ |a + m - w| < 1/100000) :
    execute_io_action a m w =
      Except.error "in order to keep same volume, IO should be equal." := by
  rw [execute_io_action.eq_def, dif_neg h]

/-- No run of `execute_io_action` ever publishes an `io_batched` record:
the fuel-level trace contains only pump-driver calls. -/
theorem executeIoFuel_no_publish (fuel : ℕ) :
    ∀ a m w : ℚ, ∀ l, executeIoFuel fuel a m w = some (Except.ok l) →
      PumpAction.publish_io_batched ∉ l := by
  induction fuel with
  | zero =>
    intro a m w l hx
    exact Option.noConfusion hx
  | succ fuel ih =>
    intro a m w l hx
    simp only [executeIoFuel] at hx
    by_cases h1 : |a + m - w| < 1/100000
    · rw [if_pos h1] at hx
      by_cases h2 : (1/2 : ℚ) < w
      · rw [if_pos h2] at hx
        cases hsub : executeIoFuel fuel (a / 2) (m / 2) (w / 2) with
        | none => rw [hsub] at hx; exact Option.noConfusion hx
        | some r1 =>
          rw [hsub] at hx
          cases r1 with
          | error e => exact Except.noConfusion (Option.some.inj hx)
          | ok l1 =>
            have hl : l1 ++ l1 = l := Except.ok.inj (Option.some.inj hx)
            have hnp := ih (a / 2) (m / 2) (w / 2) l1 hsub
            rw [← hl]
            intro hmem
            rcases List.mem_append.mp hmem with hm | hm
            · exact hnp hm
            · exact hnp hm
      · rw [if_neg h2] at hx
        have hl := Except.ok.inj (Option.some.inj hx)
        rw [← hl]
        have hA : PumpAction.publish_io_batched ∉
            (if 0 < a then [PumpAction.add_alt_media a] else []) := by
          split <;> simp
        have hB : PumpAction.publish_io_batched ∉
            (if 0 < m then [PumpAction.add_media m] else []) := by
          split <;> simp
        have hC : PumpAction.publish_io_batched ∉
            (if 0 < w then [PumpAction.remove_waste w] else []) := by
          split <;> simp
        simp only [List.mem_append]
        intro hmem
        rcases hmem with (hm | hm) | hm
        · exact hA hm
        · exact hB hm
        · exact hC hm
    · rw [if_neg h1] at hx
      exact Except.noConfusion (Option.some.inj hx)

/-- Transfer of `executeIoFuel_no_publish` to the source function. -/
theorem execute_io_action_no_publish {a m w : ℚ} {l : List PumpAction}
    (h : execute_io_action a m w = Except.ok l) :
    PumpAction.publish_io_batched ∉ l := by
  have hf := executeIoFuel_eq ⌈2 * w⌉₊ a m w le_rfl
  rw [h] at hf
  exact executeIoFuel_no_publish _ a m w l hf

/-- Total volume pushed through the `add_alt_media` driver in a trace. -/
def altTotal : List PumpAction → ℚ
  | [] => 0
  | PumpAction.add_alt_media v :: rest => v + altTotal rest
  | _ :: rest => altTotal rest

/-- Total volume pushed through the `add_media` driver in a trace. -/
def mediaTotal : List PumpAction → ℚ
  | [] => 0
  | PumpAction.add_media v :: rest => v + mediaTotal rest
  | _ :: rest => mediaTotal rest

/-- Total volume pushed through the `remove_waste` driver in a trace. -/
def wasteTotal : List PumpAction → ℚ
  | [] => 0
  | PumpAction.remove_waste v :: rest => v + wasteTotal rest
  | _ :: rest => wasteTotal rest

theorem altTotal_append (l1 l2 : List PumpAction) :
    altTotal (l1 ++ l2) = altTotal l1 + altTotal l2 := by
  induction l1 with
  | nil => simp [altTotal]
  | cons x rest ih => cases x <;> simp [altTotal, ih] <;> ring

theorem mediaTotal_append (l1 l2 : List PumpAction) :
    mediaTotal (l1 ++ l2) = mediaTotal l1 + mediaTotal l2 := by
  induction l1 with
  | nil => simp [mediaTotal]
  | cons x rest ih => cases x <;> simp [mediaTotal, ih] <;> ring

theorem wasteTotal_append (l1 l2 : List PumpAction) :
    wasteTotal (l1 ++ l2) = wasteTotal l1 + wasteTotal l2 := by
  induction l1 with
  | nil => simp [wasteTotal]
  | cons x rest ih => cases x <;> simp [wasteTotal, ih] <;> ring

theorem half_pos_iff (a : ℚ) : 0 < a / 2 ↔ 0 < a := by
  constructor <;> intro h <;> linarith

/-- Doubling an `if`-guarded half reassembles the whole. -/
theorem ite_half_add (a : ℚ) :
    (if 0 < a / 2 then a / 2 else 0) + (if 0 < a / 2 then a / 2 else 0) =
      (if 0 < a then a else 0) := by
  by_cases hp : 0 < a
  · rw [if_pos ((half_pos_iff a).mpr hp), if_pos hp]
    ring
  · rw [if_neg (fun hc => hp ((half_pos_iff a).mp hc)), if_neg hp]
    ring

/-- The recursive splitting conserves the total volume delivered by each
driver: a successful trace pumps exactly the requested (positive)
volumes. -/
theorem executeIoFuel_totals (fuel : ℕ) :
    ∀ a m w : ℚ, ∀ l, executeIoFuel fuel a m w = some (Except.ok l) →
      altTotal l = (if 0 < a then a else 0) ∧
      mediaTotal l = (if 0 < m then m else 0) ∧
      wasteTotal l = (if 0 < w then w else 0) := by
  induction fuel with
  | zero =>
    intro a m w l hx
    exact Option.noConfusion hx
  | succ fuel ih =>
    intro a m w l hx
    simp only [executeIoFuel] at hx
    by_cases h1 : |a + m - w| < 1/100000
    · rw [if_pos h1] at hx
      by_cases h2 : (1/2 : ℚ) < w
      · rw [if_pos h2] at hx
        cases hsub : executeIoFuel fuel (a / 2) (m / 2) (w / 2) with
        | none => rw [hsub] at hx; exact Option.noConfusion hx
        | some r1 =>
          rw [hsub] at hx
          cases r1 with
          | error e => exact Except.noConfusion (Option.some.inj hx)
          | ok l1 =>
            have hl : l1 ++ l1 = l := Except.ok.inj (Option.some.inj hx)
            obtain ⟨ha, hm, hw⟩ := ih (a / 2) (m / 2) (w / 2) l1 hsub
            rw [← hl]
            refine ⟨?_, ?_, ?_⟩
            · rw [altTotal_append, ha, ite_half_add]
            · rw [mediaTotal_append, hm, ite_half_add]
            · rw [wasteTotal_append, hw, ite_half_add]
      · rw [if_neg h2] at hx
        have hl := Except.ok.inj (Option.some.inj hx)
        rw [← hl]
        refine ⟨?_, ?_, ?_⟩
        · rw [altTotal_append, altTotal_append]
          have hA : altTotal (if 0 < a then [PumpAction.add_alt_media a] else []) =
              (if 0 < a then a else 0) := by
            by_cases hp : 0 < a
            · rw [if_pos hp, if_pos hp]; simp [altTotal]
            · rw [if_neg hp, if_neg hp]; simp [altTotal]
          have hB : altTotal (if 0 < m then [PumpAction.add_media m] else []) = 0 := by
            by_cases hp : 0 < m
            · rw [if_pos hp]; simp [altTotal]
            · rw [if_neg hp]; simp [altTotal]
          have hC : altTotal (if 0 < w then [PumpAction.remove_waste w] else []) = 0 := by
            by_cases hp : 0 < w
            · rw [if_pos hp]; simp [altTotal]
            · rw [if_neg hp]; simp [altTotal]
          rw [hA, hB, hC]; ring
        · rw [mediaTotal_append, mediaTotal_append]
          have hA : mediaTotal (if 0 < a then [PumpAction.add_alt_media a] else []) = 0 := by
            by_cases hp : 0 < a
            · rw [if_pos hp]; simp [mediaTotal]
            · rw [if_neg hp]; simp [mediaTotal]
          have hB : mediaTotal (if 0 < m then [PumpAction.add_media m] else []) =
              (if 0 < m then m else 0) := by
            by_cases hp : 0 < m
            · rw [if_pos hp, if_pos hp]; simp [mediaTotal]
            · rw [if_neg hp, if_neg hp]; simp [mediaTotal]
          have hC : mediaTotal (if 0 < w then [PumpAction.remove_waste w] else []) = 0 := by
            by_cases hp : 0 < w
            · rw [if_pos hp]; simp [mediaTotal]
            · rw [if_neg hp]; simp [mediaTotal]
          rw [hA, hB, hC]; ring
        · rw [wasteTotal_append, wasteTotal_append]
          have hA : wasteTotal (if 0 < a then [PumpAction.add_alt_media a] else []) = 0 := by
            by_cases hp : 0 < a
            · rw [if_pos hp]; simp [wasteTotal]
            · rw [if_neg hp]; simp [wasteTotal]
          have hB : wasteTotal (if 0 < m then [PumpAction.add_media m] else []) = 0 := by
            by_cases hp : 0 < m
            · rw [if_pos hp]; simp [wasteTotal]
            · rw [if_neg hp]; simp [wasteTotal]
          have hC : wasteTotal (if 0 < w then [PumpAction.remove_waste w] else []) =
              (if 0 < w then w else 0) := by
            by_cases hp : 0 < w
            · rw [if_pos hp, if_pos hp]; simp [wasteTotal]
            · rw [if_neg hp, if_neg hp]; simp [wasteTotal]
          rw [hA, hB, hC]; ring
    · rw [if_neg h1] at hx
      exact Except.noConfusion (Option.some.inj hx)

/-- Transfer of `executeIoFuel_totals` to the source function. -/
theorem execute_io_action_totals {a m w : ℚ} {l : List PumpAction}
    (h : execute_io_action a m w = Except.ok l) :
    altTotal l = (if 0 < a then a else 0) ∧
    mediaTotal l = (if 0 < m then m else 0) ∧
    wasteTotal l = (if 0 < w then w else 0) := by
  have hf := executeIoFuel_eq ⌈2 * w⌉₊ a m w le_rfl
  rw [h] at hf
  exact executeIoFuel_totals _ a m w l hf

/-- C9: `execute_io_action` terminates for every finite input triple:
the recursive case strictly halves `waste_ml`, so the fuel-indexed
evaluator, given fuel `⌈2·waste_ml⌉₊ + 1` (one unit per halving level,
finitely many until the `waste_ml ≤ 0.5` terminal branch is reached),
already returns the value of the function — the recursion depth is
finite and bounded. -/
theorem execute_io_action_terminates (a m w : ℚ) :
    executeIoFuel (⌈2 * w⌉₊ + 1) a m w = some (execute_io_action a m w) :=
  executeIoFuel_eq ⌈2 * w⌉₊ a m w le_rfl

/-- Unfolding helper: the splitting branch of `execute_io_action`
(io_controlling.py lines 102-107) concatenates the traces of its two
identical halved sub-calls. -/
theorem execute_io_action_split {a m w : ℚ}
    (hinv : |a + m - w| < 1/100000) (hw : 1/2 < w) {l : List PumpAction}
    (hsub : execute_io_action (a / 2) (m / 2) (w / 2) = Except.ok l) :
    execute_io_action a m w = Except.ok (l ++ l) := by
  rw [execute_io_action.eq_def, dif_pos hinv, dif_pos hw, hsub]

/-- Unfolding helper: the terminal branch of `execute_io_action`
(io_controlling.py lines 108-114). -/
theorem execute_io_action_terminal {a m w : ℚ}
    (hinv : |a + m - w| < 1/100000) (hw : ¬ 1/2 < w) :
    execute_io_action a m w = Except.ok
      ((if 0 < a then [PumpAction.add_alt_media a] else []) ++
       (if 0 < m then [PumpAction.add_media m] else []) ++
       (if 0 < w then [PumpAction.remove_waste w] else [])) := by
  rw [execute_io_action.eq_def, dif_pos hinv, dif_neg hw]

/-- C2 (amended): for `waste_ml > 0.5` the call makes exactly two
recursive invocations with all three volumes halved and returns the
concatenation of their two (identical) traces, so no pump driver is
invoked directly at a splitting level; for `waste_ml ≤ 0.5` the
terminal leg runs in the fixed order alt media, media, waste, each leg
only when its volume is positive; and no invocation — outermost or
recursive — publishes an `io_batched` record (this source revision has
no `log` parameter and no `io_batched` publication). -/
theorem execute_io_action_split_spec (a m w : ℚ)
    (hinv : |a + m - w| < 1/100000) :
    (1/2 < w → ∀ l, execute_io_action (a / 2) (m / 2) (w / 2) = Except.ok l →
        execute_io_action a m w = Except.ok (l ++ l)) ∧
    (¬ 1/2 < w → execute_io_action a m w = Except.ok
        ((if 0 < a then [PumpAction.add_alt_media a] else []) ++
         (if 0 < m then [PumpAction.add_media m] else []) ++
         (if 0 < w then [PumpAction.remove_waste w] else []))) ∧
    (∀ l, execute_io_action a m w = Except.ok l →
        PumpAction.publish_io_batched ∉ l) :=
  ⟨fun hw l hsub => execute_io_action_split hinv hw hsub,
   fun hw => execute_io_action_terminal hinv hw,
   fun _ hl => execute_io_action_no_publish hl⟩

/-- Witness for `execute_io_action_split_spec`: at the concrete call
`(0, 1, 1)` the splitting leg returns the two concatenated half-traces,
and at `(0, 1/2, 1/2)` the terminal leg runs media then waste. -/
theorem execute_io_action_split_spec_witness :
    execute_io_action 0 (1/2) (1/2) =
      Except.ok [PumpAction.add_media (1/2), PumpAction.remove_waste (1/2)] ∧
    execute_io_action 0 1 1 =
      Except.ok ([PumpAction.add_media (1/2), PumpAction.remove_waste (1/2)] ++
                 [PumpAction.add_media (1/2), PumpAction.remove_waste (1/2)]) := by
  have hsub0 : execute_io_action ((0 : ℚ) / 2) ((1 : ℚ) / 2) ((1 : ℚ) / 2) =
      Except.ok [PumpAction.add_media (1/2), PumpAction.remove_waste (1/2)] := by
    have h := (execute_io_action_split_spec ((0 : ℚ) / 2) ((1 : ℚ) / 2)
      ((1 : ℚ) / 2) (by norm_num)).2.1 (by norm_num)
    rw [h]
    norm_num
  have hsub : execute_io_action 0 (1/2) (1/2) =
      Except.ok [PumpAction.add_media (1/2), PumpAction.remove_waste (1/2)] := by
    rw [show (0 : ℚ) = 0 / 2 by norm_num]
    exact hsub0
  exact ⟨hsub, (execute_io_action_split_spec 0 1 1 (by norm_num)).1
    (by norm_num) _ hsub0⟩

/-- C2 counterexample: the outermost call `execute_io_action(0, 1, 1)`
publishes nothing — its full trace consists of pump-driver calls only
and contains no `io_batched` record — refuting the claim that the
outermost invocation publishes the `io_batched` record. -/
theorem execute_io_action_no_batched_cx :
    execute_io_action 0 1 1 =
      Except.ok ([PumpAction.add_media (1/2), PumpAction.remove_waste (1/2)] ++
                 [PumpAction.add_media (1/2), PumpAction.remove_waste (1/2)]) ∧
    PumpAction.publish_io_batched ∉
      ([PumpAction.add_media (1/2), PumpAction.remove_waste (1/2)] ++
       [PumpAction.add_media (1/2), PumpAction.remove_waste (1/2)] :
        List PumpAction) := by
  have hsub0 : execute_io_action ((0 : ℚ) / 2) ((1 : ℚ) / 2) ((1 : ℚ) / 2) =
      Except.ok [PumpAction.add_media (1/2), PumpAction.remove_waste (1/2)] := by
    have h := execute_io_action_terminal (a := (0 : ℚ) / 2) (m := (1 : ℚ) / 2)
      (w := (1 : ℚ) / 2) (by norm_num) (by norm_num)
    rw [h]
    norm_num
  constructor
  · exact execute_io_action_split (by norm_num) (by norm_num) hsub0
  · decide

/-- C1: a call to `execute_io_action(alt_media_ml, media_ml, waste_ml)`
raises the assertion if and only if
`|alt_media_ml + media_ml − waste_ml| ≥ 1e-5`; in particular, under the
conservation precondition no assertion fires in the call or in any of
its recursive sub-calls (halving all three volumes preserves the
invariant), and the call returns a pump trace. -/
theorem execute_io_action_assert_iff (a m w : ℚ) :
    (∃ e, execute_io_action a m w = Except.error e) ↔
      1/100000 ≤ |a + m - w| := by
  constructor
  · rintro ⟨e, he⟩
    by_contra hlt
    push_neg at hlt
    obtain ⟨l, hl⟩ := execute_io_action_ok_of_inv a m w hlt
    rw [hl] at he
    exact Except.noConfusion he
  · intro hge
    exact ⟨_, execute_io_action_error_of_not (not_lt.mpr hge)⟩

/-- The event variants returned by `execute`
(morbidostat/background_jobs/events.py); the reason strings attached in
the source are log text and are not modelled. -/
inductive Event
  | NoEvent
  | DilutionEvent
  | AltMediaEvent
deriving DecidableEq

/-- Sensor cache of a `ControlAlgorithm` instance.  `latest_growth_rate`
and `latest_od` start as `None` (class attributes, io_controlling.py
lines 69-70); `previous_rate` and `previous_od` are first written by
`set_OD_measurements` (line 85).  The field `active` models an attribute
that can be written dynamically through `set_attr` (lines 116-123);
this source revision never defines nor reads such an attribute, and
`none` means it was never set. -/
structure AlgState where
  latest_growth_rate : Option ℚ := none
  latest_od : Option ℚ := none
  previous_rate : Option ℚ := none
  previous_od : Option ℚ := none
  active : Option ℤ := none
deriving DecidableEq

/-- The state of a freshly constructed algorithm instance, before any
tick has run. -/
def initState : AlgState := {}

/-- `ControlAlgorithm.set_OD_measurements` (io_controlling.py lines
84-89): shift the current readings into `previous_rate`/`previous_od`,
then store the freshly subscribed readings (modelled as the inputs
`growth_rate` and `od`). -/
def set_OD_measurements (s : AlgState) (growth_rate od : ℚ) : AlgState :=
  { s with
    previous_rate := s.latest_growth_rate
    previous_od := s.latest_od
    latest_growth_rate := some growth_rate
    latest_od := some od }

/-- `ControlAlgorithm.run` (io_controlling.py lines 78-82): refresh the
sensor cache, then dispatch to the subclass `execute`; the returned
event (or the exception from `execute`) is the second component.  The
log publish on line 81 is telemetry and not modelled. -/
def ControlAlgorithm.run
    (execute : AlgState → Except String (Event × List PumpAction))
    (s : AlgState) (growth_rate od : ℚ) :
    AlgState × Except String (Event × List PumpAction) :=
  let s' := set_OD_measurements s growth_rate od
  (s', execute s')

/-- `Turbidostat.execute` (io_controlling.py lines 165-170).  Comparing
a `None` reading to a float would raise in Python; inside `run` the
reading is always present. -/
def Turbidostat.execute (target_od volume : ℚ) (s : AlgState) :
    Except String (Event × List PumpAction) :=
  match s.latest_od with
  | none => Except.error "TypeError: NoneType comparison"
  | some latest_od =>
    if target_od ≤ latest_od then
      (execute_io_action 0 volume volume).map
        (fun acts => (Event.DilutionEvent, acts))
    else
      Except.ok (Event.NoEvent, [])

/-- A full `Turbidostat` tick: `ControlAlgorithm.run` with the
turbidostat `execute`. -/
def Turbidostat.run (target_od volume : ℚ) (s : AlgState)
    (growth_rate od : ℚ) :
    AlgState × Except String (Event × List PumpAction) :=
  ControlAlgorithm.run (Turbidostat.execute target_od volume) s growth_rate od

/-- `Morbidostat.execute` (io_controlling.py lines 286-304): `NoEvent`
on the first tick (`previous_od` still `None`); otherwise dose alt
media against a monotone rise above the threshold, else dilute. -/
def Morbidostat.execute (target_od volume : ℚ) (s : AlgState) :
    Except String (Event × List PumpAction) :=
  match s.previous_od with
  | none => Except.ok (Event.NoEvent, [])
  | some previous_od =>
    match s.latest_od with
    | none => Except.error "TypeError: NoneType comparison"
    | some latest_od =>
      if target_od ≤ latest_od ∧ previous_od ≤ latest_od then
        (execute_io_action volume 0 volume).map
          (fun acts => (Event.AltMediaEvent, acts))
      else
        (execute_io_action 0 volume volume).map
          (fun acts => (Event.DilutionEvent, acts))

/-- `VIAL_VOLUME` (io_controlling.py line 28). -/
def VIAL_VOLUME : ℚ := 14

/-- The parameters of a constructed PID controller, as passed to
`simple_pid.PID(Kp, Ki, Kd, setpoint=…, output_limits=(lb, ub))`. -/
structure PIDParams where
  Kp : ℚ
  Ki : ℚ
  Kd : ℚ
  setpoint : ℚ
  output_limits_lb : ℚ
  output_limits_ub : ℚ
deriving DecidableEq

/-- The PID constructed in `PIDMorbidostat.__init__` (io_controlling.py
lines 224-234): `PID(-8.00, -0.01, 0.0, setpoint=target_growth_rate,
output_limits=(0, 1))`. -/
def PIDMorbidostat.pid (target_growth_rate : ℚ) : PIDParams :=
  { Kp := -8
    Ki := -1/100
    Kd := 0
    setpoint := target_growth_rate
    output_limits_lb := 0
    output_limits_ub := 1 }

/-- `self.od_to_start_diluting = 0.75 * target_od` (line 221). -/
def PIDMorbidostat.od_to_start_diluting (target_od : ℚ) : ℚ :=
  3/4 * target_od

/-- `self.max_od = 1.20 * target_od` (line 222). -/
def PIDMorbidostat.max_od (target_od : ℚ) : ℚ :=
  6/5 * target_od

/-- `self.volume = self.target_growth_rate * VIAL_VOLUME *
(self.duration / 60)` (line 243).  The constructor's `volume` argument
is ignored: when it is not `None` the source merely publishes a log
notice (lines 236-241). -/
def PIDMorbidostat.init_volume (target_growth_rate duration : ℚ)
    (volume : Option ℚ) : ℚ :=
  target_growth_rate * VIAL_VOLUME * (duration / 60)

/-- `PIDMorbidostat.execute` (io_controlling.py lines 245-273).  The PID
output `fraction_of_alt_media_to_add = pid.update(latest_growth_rate,
dt=duration)` comes from the external `simple_pid` library and is
modelled as the input parameter `fraction_of_alt_media_to_add`; the
declared output limits clamp it to `[0, 1]`. -/
def PIDMorbidostat.execute (target_growth_rate target_od duration : ℚ)
    (fraction_of_alt_media_to_add : ℚ) (s : AlgState) :
    Except String (Event × List PumpAction) :=
  match s.latest_od with
  | none => Except.error "TypeError: NoneType comparison"
  | some latest_od =>
    if latest_od ≤ PIDMorbidostat.od_to_start_diluting target_od then
      Except.ok (Event.NoEvent, [])
    else
      let volume :=
        if PIDMorbidostat.max_od target_od < latest_od then
          2 * PIDMorbidostat.init_volume target_growth_rate duration none
        else
          PIDMorbidostat.init_volume target_growth_rate duration none
      let alt_media_ml := fraction_of_alt_media_to_add * volume
      let media_ml := (1 - fraction_of_alt_media_to_add) * volume
      (execute_io_action alt_media_ml media_ml volume).map
        (fun acts => (Event.AltMediaEvent, acts))

/-- The pump-conservation invariant holds trivially when alt = waste and
media = 0. -/
theorem inv_alt_waste (v : ℚ) : |v + 0 - v| < 1/100000 := by
  have h : v + 0 - v = 0 := by ring
  rw [h]
  norm_num

/-- The pump-conservation invariant holds trivially when media = waste
and alt = 0. -/
theorem inv_media_waste (v : ℚ) : |0 + v - v| < 1/100000 := by
  have h : (0 : ℚ) + v - v = 0 := by ring
  rw [h]
  norm_num

/-- C7: on every Morbidostat tick, a `None` `previous_od` (first tick)
yields `NoEvent` with no pump action; otherwise, when
`latest_od ≥ target_od` and `latest_od ≥ previous_od`, the primitive is
called with alt = volume, waste = volume (media = 0) and an
`AltMediaEvent` is returned; in all remaining cases the primitive is
called with media = volume, waste = volume (alt = 0) and a
`DilutionEvent` is returned.  The volumes actually pumped are stated
through the trace totals. -/
theorem morbidostat_execute_spec (target_od volume latest_od previous_od : ℚ) :
    (∀ s : AlgState, s.previous_od = none →
        Morbidostat.execute target_od volume s =
          Except.ok (Event.NoEvent, [])) ∧
    (target_od ≤ latest_od → previous_od ≤ latest_od →
        ∃ acts, Morbidostat.execute target_od volume
            { latest_od := some latest_od, previous_od := some previous_od } =
          Except.ok (Event.AltMediaEvent, acts) ∧
          altTotal acts = (if 0 < volume then volume else 0) ∧
          mediaTotal acts = 0 ∧
          wasteTotal acts = (if 0 < volume then volume else 0)) ∧
    (¬ (target_od ≤ latest_od ∧ previous_od ≤ latest_od) →
        ∃ acts, Morbidostat.execute target_od volume
            { latest_od := some latest_od, previous_od := some previous_od } =
          Except.ok (Event.DilutionEvent, acts) ∧
          altTotal acts = 0 ∧
          mediaTotal acts = (if 0 < volume then volume else 0) ∧
          wasteTotal acts = (if 0 < volume then volume else 0)) := by
  refine ⟨?_, ?_, ?_⟩
  · intro s hs
    simp [Morbidostat.execute, hs]
  · intro h1 h2
    obtain ⟨l, hl⟩ := execute_io_action_ok_of_inv volume 0 volume
      (inv_alt_waste volume)
    obtain ⟨ha, hm, hw⟩ := execute_io_action_totals hl
    refine ⟨l, ?_, ha, ?_, hw⟩
    · simp only [Morbidostat.execute]
      rw [if_pos ⟨h1, h2⟩, hl]
      rfl
    · rw [hm]
      simp
  · intro h
    obtain ⟨l, hl⟩ := execute_io_action_ok_of_inv 0 volume volume
      (inv_media_waste volume)
    obtain ⟨ha, hm, hw⟩ := execute_io_action_totals hl
    refine ⟨l, ?_, ?_, hm, hw⟩
    · simp only [Morbidostat.execute]
      rw [if_neg h, hl]
      rfl
    · rw [ha]
      simp

/-- Witness for `morbidostat_execute_spec` at concrete inputs: first
tick on the empty state, a rising over-threshold tick at
`(target 1, volume 1/4, latest 2, previous 1)`, and a dilution tick at
`(target 1, volume 1/4, latest 0, previous 1)`. -/
theorem morbidostat_execute_spec_witness :
    Morbidostat.execute 1 (1/4) initState = Except.ok (Event.NoEvent, []) ∧
    (∃ acts, Morbidostat.execute 1 (1/4)
        { latest_od := some 2, previous_od := some 1 } =
      Except.ok (Event.AltMediaEvent, acts) ∧
      altTotal acts = (if 0 < (1/4 : ℚ) then 1/4 else 0) ∧
      mediaTotal acts = 0 ∧
      wasteTotal acts = (if 0 < (1/4 : ℚ) then 1/4 else 0)) ∧
    (∃ acts, Morbidostat.execute 1 (1/4)
        { latest_od := some 0, previous_od := some 1 } =
      Except.ok (Event.DilutionEvent, acts) ∧
      altTotal acts = 0 ∧
      mediaTotal acts = (if 0 < (1/4 : ℚ) then 1/4 else 0) ∧
      wasteTotal acts = (if 0 < (1/4 : ℚ) then 1/4 else 0)) :=
  ⟨(morbidostat_execute_spec 1 (1/4) 0 0).1 initState rfl,
   (morbidostat_execute_spec 1 (1/4) 2 1).2.1 (by norm_num) (by norm_num),
   (morbidostat_execute_spec 1 (1/4) 0 1).2.2 (by norm_num)⟩

/-- The sensor-cache state after a sequence of ticks, each tick feeding
one `(growth_rate, od)` reading pair through `set_OD_measurements` (the
state-changing part of `ControlAlgorithm.run`), starting from the fresh
instance. -/
def runSequence (readings : List (ℚ × ℚ)) : AlgState :=
  readings.foldl (fun s p => set_OD_measurements s p.1 p.2) initState

/-- After any sequence of ticks, `latest_od` is exactly the OD of the
last reading delivered (and `none` before the first tick). -/
theorem runSequence_latest_od (readings : List (ℚ × ℚ)) :
    (runSequence readings).latest_od = readings.getLast?.map Prod.snd := by
  induction readings using List.reverseRecOn with
  | nil => rfl
  | append_singleton rs r _ =>
    rw [runSequence, List.foldl_concat, List.getLast?_concat]
    rfl

/-- C10: every `ControlAlgorithm.run` tick first shifts
`latest_growth_rate`/`latest_od` into `previous_rate`/`previous_od`
before storing the fresh readings, so on every tick `previous_od`
equals the `latest_od` observed at the immediately preceding tick, and
`previous_od` is `none` exactly on the first tick. -/
theorem run_shifts_od_history (readings : List (ℚ × ℚ)) (r : ℚ × ℚ) :
    (∀ execute s growth_rate od,
        (ControlAlgorithm.run execute s growth_rate od).1 =
          set_OD_measurements s growth_rate od) ∧
    (runSequence (readings ++ [r])).previous_od =
      (runSequence readings).latest_od ∧
    (runSequence (readings ++ [r])).previous_rate =
      (runSequence readings).latest_growth_rate ∧
    (runSequence readings).latest_od = readings.getLast?.map Prod.snd ∧
    ((runSequence (readings ++ [r])).previous_od = none ↔ readings = []) := by
  have hshift : (runSequence (readings ++ [r])).previous_od =
      (runSequence readings).latest_od := by
    rw [runSequence, List.foldl_concat]
    rfl
  have hshiftr : (runSequence (readings ++ [r])).previous_rate =
      (runSequence readings).latest_growth_rate := by
    rw [runSequence, List.foldl_concat]
    rfl
  refine ⟨fun _ _ _ _ => rfl, hshift, hshiftr, runSequence_latest_od readings, ?_⟩
  rw [hshift, runSequence_latest_od readings]
  constructor
  · intro h
    exact List.getLast?_eq_none_iff.mp (Option.map_eq_none'.mp h)
  · intro h
    rw [h]
    rfl

/-- C3 (amended): `ControlAlgorithm.run` performs no pause check — this
source revision neither defines nor reads an `active` attribute — so
the tick outcome is independent of `active`, and a `Turbidostat` tick
with `latest_od ≥ target_od` triggers a `DilutionEvent` with pump
actions whatever the value of `active`. -/
theorem run_ignores_active (target_od volume : ℚ) (s : AlgState)
    (a : Option ℤ) (growth_rate od : ℚ) :
    (Turbidostat.run target_od volume { s with active := a }
        growth_rate od).2 =
      (Turbidostat.run target_od volume s growth_rate od).2 ∧
    (target_od ≤ od → ∃ acts,
        (Turbidostat.run target_od volume { s with active := a }
            growth_rate od).2 =
          Except.ok (Event.DilutionEvent, acts) ∧
        wasteTotal acts = (if 0 < volume then volume else 0)) := by
  constructor
  · rfl
  · intro h
    obtain ⟨l, hl⟩ := execute_io_action_ok_of_inv 0 volume volume
      (inv_media_waste volume)
    obtain ⟨_, _, hw⟩ := execute_io_action_totals hl
    refine ⟨l, ?_, hw⟩
    show Turbidostat.execute target_od volume
      (set_OD_measurements { s with active := a } growth_rate od) = _
    simp only [Turbidostat.execute, set_OD_measurements]
    rw [if_pos h, hl]
    rfl

/-- Witness for `run_ignores_active`: with the attribute `active = 0`
set on the state, a tick at `target_od = 1`, `od = 2` still dilutes. -/
theorem run_ignores_active_witness :
    (Turbidostat.run 1 (1/4) { initState with active := some 0 } 1 2).2 =
      (Turbidostat.run 1 (1/4) initState 1 2).2 ∧
    (∃ acts, (Turbidostat.run 1 (1/4) { initState with active := some 0 }
        1 2).2 =
      Except.ok (Event.DilutionEvent, acts) ∧
      wasteTotal acts = (if 0 < (1/4 : ℚ) then 1/4 else 0)) :=
  ⟨(run_ignores_active 1 (1/4) initState (some 0) 1 2).1,
   (run_ignores_active 1 (1/4) initState (some 0) 1 2).2 (by norm_num)⟩

/-- C3 counterexample: a `Turbidostat` tick whose state carries the
attribute `active = 0` does not return `NoEvent`: `run` has no pause
check, calls `execute`, and at `latest_od = 2 ≥ target_od = 1` it
returns a `DilutionEvent` together with pump actions. -/
theorem run_active_zero_cx :
    ({ initState with active := some 0 } : AlgState).active = some 0 ∧
    (Turbidostat.run 1 (1/4) { initState with active := some 0 } 1 2).2 =
      Except.ok (Event.DilutionEvent,
        [PumpAction.add_media (1/4), PumpAction.remove_waste (1/4)]) ∧
    ∀ acts, (Turbidostat.run 1 (1/4) { initState with active := some 0 }
        1 2).2 ≠ Except.ok (Event.NoEvent, acts) := by
  have hterm : execute_io_action 0 (1/4) (1/4) =
      Except.ok [PumpAction.add_media (1/4), PumpAction.remove_waste (1/4)] := by
    have h := execute_io_action_terminal (a := (0 : ℚ)) (m := (1/4 : ℚ))
      (w := (1/4 : ℚ)) (inv_media_waste (1/4)) (by norm_num)
    rw [h]
    norm_num
  have heq : (Turbidostat.run 1 (1/4)
      { initState with active := some 0 } 1 2).2 =
      Except.ok (Event.DilutionEvent,
        [PumpAction.add_media (1/4), PumpAction.remove_waste (1/4)]) := by
    show Turbidostat.execute 1 (1/4)
      (set_OD_measurements { initState with active := some 0 } 1 2) = _
    simp only [Turbidostat.execute, set_OD_measurements]
    rw [if_pos (by norm_num : (1 : ℚ) ≤ 2), hterm]
    rfl
  refine ⟨rfl, heq, ?_⟩
  intro acts hc
  rw [heq] at hc
  simp at hc

/-- C4 counterexample: the PID constructed by `PIDMorbidostat.__init__`
has `Kp = -8` (not `-2.00`) and `Kd = 0` (not `-0.05`). -/
theorem pid_morbidostat_gains_cx :
    (PIDMorbidostat.pid 1).Kp = -8 ∧ (PIDMorbidostat.pid 1).Kp ≠ -2 ∧
    (PIDMorbidostat.pid 1).Kd = 0 ∧ (PIDMorbidostat.pid 1).Kd ≠ -1/20 := by
  refine ⟨rfl, ?_, rfl, ?_⟩
  · norm_num [PIDMorbidostat.pid]
  · norm_num [PIDMorbidostat.pid]

/-- C4 (amended): `PIDMorbidostat` constructs its PID controller with
gains `Kp = -8.00`, `Ki = -0.01`, `Kd = 0.0`,
`setpoint = target_growth_rate` and output limits `(0, 1)`. -/
theorem pid_morbidostat_gains (target_growth_rate : ℚ) :
    (PIDMorbidostat.pid target_growth_rate).Kp = -8 ∧
    (PIDMorbidostat.pid target_growth_rate).Ki = -1/100 ∧
    (PIDMorbidostat.pid target_growth_rate).Kd = 0 ∧
    (PIDMorbidostat.pid target_growth_rate).setpoint = target_growth_rate ∧
    (PIDMorbidostat.pid target_growth_rate).output_limits_lb = 0 ∧
    (PIDMorbidostat.pid target_growth_rate).output_limits_ub = 1 :=
  ⟨rfl, rfl, rfl, rfl, rfl, rfl⟩

/-- Unfolding helper for a dosing `PIDMorbidostat` tick
(`latest_od > od_to_start_diluting`): the primitive is invoked with
`alt = f·volume`, `media = (1-f)·volume`, `waste = volume`, where
`volume` doubles exactly above `max_od`. -/
theorem pid_execute_unfold (target_growth_rate target_od duration f : ℚ)
    (s : AlgState) (latest_od : ℚ) (hs : s.latest_od = some latest_od)
    (hod : PIDMorbidostat.od_to_start_diluting target_od < latest_od) :
    PIDMorbidostat.execute target_growth_rate target_od duration f s =
      (execute_io_action
        (f * (if PIDMorbidostat.max_od target_od < latest_od then
                2 * PIDMorbidostat.init_volume target_growth_rate duration none
              else
                PIDMorbidostat.init_volume target_growth_rate duration none))
        ((1 - f) * (if PIDMorbidostat.max_od target_od < latest_od then
                2 * PIDMorbidostat.init_volume target_growth_rate duration none
              else
                PIDMorbidostat.init_volume target_growth_rate duration none))
        (if PIDMorbidostat.max_od target_od < latest_od then
            2 * PIDMorbidostat.init_volume target_growth_rate duration none
          else
            PIDMorbidostat.init_volume target_growth_rate duration none)).map
        (fun acts => (Event.AltMediaEvent, acts)) := by
  simp only [PIDMorbidostat.execute, hs]
  rw [if_neg (not_le.mpr hod)]

/-- The conservation invariant for the PID dose: the alt and media
fractions always sum to the waste volume. -/
theorem inv_pid_dose (f v : ℚ) : |f * v + (1 - f) * v - v| < 1/100000 := by
  have h : f * v + (1 - f) * v - v = 0 := by ring
  rw [h]
  norm_num

/-- C5 (amended): on every dosing `PIDMorbidostat` tick the waste volume
pumped equals `target_growth_rate · VIAL_VOLUME · (duration/60)`
(`VIAL_VOLUME = 14`; any `volume` argument passed at construction is
ignored), doubled exactly when `latest_od > max_od = 1.20 ·
target_od`. -/
theorem pid_morbidostat_volume_spec
    (target_growth_rate target_od duration f latest_od : ℚ)
    (vol_arg : Option ℚ) (hf0 : 0 ≤ f) (hf1 : f ≤ 1)
    (hb : 0 ≤ PIDMorbidostat.init_volume target_growth_rate duration none)
    (hod : PIDMorbidostat.od_to_start_diluting target_od < latest_od) :
    PIDMorbidostat.init_volume target_growth_rate duration vol_arg =
      target_growth_rate * VIAL_VOLUME * (duration / 60) ∧
    PIDMorbidostat.max_od target_od = 6/5 * target_od ∧
    ∃ acts, PIDMorbidostat.execute target_growth_rate target_od duration f
        { latest_od := some latest_od } =
      Except.ok (Event.AltMediaEvent, acts) ∧
      wasteTotal acts =
        (if PIDMorbidostat.max_od target_od < latest_od then
          2 * PIDMorbidostat.init_volume target_growth_rate duration none
        else
          PIDMorbidostat.init_volume target_growth_rate duration none) := by
  refine ⟨rfl, rfl, ?_⟩
  have hunfold := pid_execute_unfold target_growth_rate target_od duration f
    { latest_od := some latest_od } latest_od rfl hod
  by_cases hd : PIDMorbidostat.max_od target_od < latest_od
  · rw [if_pos hd] at hunfold
    obtain ⟨l, hl⟩ := execute_io_action_ok_of_inv _ _ _
      (inv_pid_dose f (2 * PIDMorbidostat.init_volume target_growth_rate
        duration none))
    obtain ⟨_, _, hw⟩ := execute_io_action_totals hl
    refine ⟨l, ?_, ?_⟩
    · rw [hunfold, hl]
      rfl
    · rw [hw, if_pos hd]
      by_cases hv : 0 < 2 * PIDMorbidostat.init_volume target_growth_rate
          duration none
      · rw [if_pos hv]
      · rw [if_neg hv]
        have h0 : 2 * PIDMorbidostat.init_volume target_growth_rate
            duration none = 0 := by
          have := not_lt.mp hv
          linarith
        linarith
  · rw [if_neg hd] at hunfold
    obtain ⟨l, hl⟩ := execute_io_action_ok_of_inv _ _ _
      (inv_pid_dose f (PIDMorbidostat.init_volume target_growth_rate
        duration none))
    obtain ⟨_, _, hw⟩ := execute_io_action_totals hl
    refine ⟨l, ?_, ?_⟩
    · rw [hunfold, hl]
      rfl
    · rw [hw, if_neg hd]
      by_cases hv : 0 < PIDMorbidostat.init_volume target_growth_rate
          duration none
      · rw [if_pos hv]
      · rw [if_neg hv]
        have h0 := not_lt.mp hv
        linarith

/-- Witness for `pid_morbidostat_volume_spec` at
`target_growth_rate = 1/2`, `duration = 60`, `target_od = 1`,
`f = 1/2`, `latest_od = 2` (above `max_od`, so the doubled branch). -/
theorem pid_morbidostat_volume_spec_witness :
    PIDMorbidostat.init_volume (1/2) 60 (some 3) =
      (1/2) * VIAL_VOLUME * (60 / 60) ∧
    PIDMorbidostat.max_od 1 = 6/5 * 1 ∧
    ∃ acts, PIDMorbidostat.execute (1/2) 1 60 (1/2)
        { latest_od := some 2 } =
      Except.ok (Event.AltMediaEvent, acts) ∧
      wasteTotal acts =
        (if PIDMorbidostat.max_od 1 < 2 then
          2 * PIDMorbidostat.init_volume (1/2) 60 none
        else
          PIDMorbidostat.init_volume (1/2) 60 none) :=
  pid_morbidostat_volume_spec (1/2) 1 60 (1/2) 2 (some 3)
    (by norm_num) (by norm_num)
    (by norm_num [PIDMorbidostat.init_volume, VIAL_VOLUME])
    (by norm_num [PIDMorbidostat.od_to_start_diluting])

/-- C5 counterexample: at `target_od = 1` and `latest_od = 1.15`
(which is `> 1.1 · target_od` but `< 1.2 · target_od`), the code does
not double: with `target_growth_rate = 1/28` and `duration = 60` the
base volume is `1/2`, and the dosed waste is `1/2`, not
`2 · (1/2) = 1`. -/
theorem pid_morbidostat_no_double_cx :
    (11/10 : ℚ) * 1 < 23/20 ∧
    PIDMorbidostat.execute (1/28) 1 60 0 { latest_od := some (23/20) } =
      Except.ok (Event.AltMediaEvent,
        [PumpAction.add_media (1/2), PumpAction.remove_waste (1/2)]) ∧
    wasteTotal [PumpAction.add_media (1/2), PumpAction.remove_waste (1/2)] ≠
      2 * PIDMorbidostat.init_volume (1/28) 60 none := by
  have hv : PIDMorbidostat.init_volume (1/28) 60 none = 1/2 := by
    norm_num [PIDMorbidostat.init_volume, VIAL_VOLUME]
  have hterm : execute_io_action 0 (1/2) (1/2) =
      Except.ok [PumpAction.add_media (1/2), PumpAction.remove_waste (1/2)] := by
    have h := execute_io_action_terminal (a := (0 : ℚ)) (m := (1/2 : ℚ))
      (w := (1/2 : ℚ)) (inv_media_waste (1/2)) (by norm_num)
    rw [h]
    norm_num
  refine ⟨by norm_num, ?_, ?_⟩
  · have hunfold := pid_execute_unfold (1/28) 1 60 0
      { latest_od := some (23/20) } (23/20) rfl
      (by norm_num [PIDMorbidostat.od_to_start_diluting])
    rw [if_neg (by norm_num [PIDMorbidostat.max_od] :
      ¬ PIDMorbidostat.max_od 1 < (23/20 : ℚ))] at hunfold
    rw [hv] at hunfold
    rw [hunfold, show (0 : ℚ) * (1/2) = 0 by ring,
      show ((1 : ℚ) - 0) * (1/2) = 1/2 by ring, hterm]
    rfl
  · rw [hv]
    norm_num [wasteTotal]

end IoControlling

namespace Pioreactor

deriving instance DecidableEq for Except

/-- MQTT topic-filter matching, level by level, as implemented by
`paho.mqtt.client.topic_matches_sub` (an external library dependency of
base.py): `+` matches exactly one level, a trailing `#` matches any
remainder.  Topics and filters are modelled as their `/`-separated
level lists (paho splits both strings on `/` before matching). -/
def matchLevels : List String → List String → Bool
  | ["#"], _ => true
  | [], [] => true
  | s :: ss, t :: ts => (s == "+" || s == t) && matchLevels ss ts
  | _, _ => false

/-- `topic_matches_sub(sub, topic)` on level lists. -/
def topic_matches_sub (sub topic : List String) : Bool :=
  matchLevels sub topic

/-- The guard defined inside `BackgroundJob.subscribe_and_callback`
(base.py lines 142-154).  Two source defects are mirrored faithfully:
(a) the loop body tests `topic_matches_sub(*subs)` — unpacking the
whole subscription list — instead of the current pair, a `TypeError`
unless the list has exactly two entries; and (b) the guard is never
invoked anywhere, see `subscribe_and_callback` below.  With fewer than
two subscriptions `combinations(subs, 2)` is empty and the loop body
never runs. -/
def check_for_duplicate_subs (subs : List (List String)) :
    Except String Unit :=
  match subs with
  | [] => Except.ok ()
  | [_] => Except.ok ()
  | [s1, s2] =>
    if topic_matches_sub s1 s2 then
      Except.error "found equivalent pair of subs with same callback"
    else
      Except.ok ()
  | _ => Except.error "TypeError: topic_matches_sub takes 2 arguments"

/-- The subscription registry of the MQTT sub client: pairs of
(topic filter, callback name), in registration order. -/
structure SubClient where
  callbacks : List (List String × String) := []
deriving DecidableEq

/-- `BackgroundJob.subscribe_and_callback` (base.py lines 127-179):
normalise `subscriptions` to a list, then for each pattern call
`message_callback_add(sub, wrap_callback(callback))` and
`subscribe(sub)`.  The loop performs no duplicate check —
`check_for_duplicate_subs` is defined locally but never called — so
registration always succeeds.  Callbacks are identified by name;
`wrap_callback`'s retained-message filter does not affect which
callbacks a delivery reaches and is not modelled. -/
def subscribe_and_callback (client : SubClient) (callback : String)
    (subscriptions : List (List String)) : Except String SubClient :=
  Except.ok
    { callbacks := client.callbacks ++
        subscriptions.map (fun sub => (sub, callback)) }

/-- Modelled from the spec: delivery of a message on a concrete topic
fires the callback of every registered subscription whose filter
topic-matches it ("overlapping callbacks would double-fire"); the
dispatch itself lives in the external paho client. -/
def deliver (client : SubClient) (topic : List String) : List String :=
  (client.callbacks.filter (fun p => topic_matches_sub p.1 topic)).map
    Prod.snd

/-- C6 (code evidence for the bug): the wildcard filter
`pioreactor/unit1/exp1/job1/+/set` and the concrete filter
`pioreactor/unit1/exp1/job1/target_od/set` both topic-match the
concrete topic `pioreactor/unit1/exp1/job1/target_od/set`; the dead
guard `check_for_duplicate_subs` would raise on this very pair; yet
`subscribe_and_callback` registers both without any error, and a
message on the shared topic then fires the same callback twice. -/
theorem subscribe_overlap_no_error :
    topic_matches_sub ["pioreactor", "unit1", "exp1", "job1", "+", "set"]
      ["pioreactor", "unit1", "exp1", "job1", "target_od", "set"] = true ∧
    topic_matches_sub
      ["pioreactor", "unit1", "exp1", "job1", "target_od", "set"]
      ["pioreactor", "unit1", "exp1", "job1", "target_od", "set"] = true ∧
    check_for_duplicate_subs
      [["pioreactor", "unit1", "exp1", "job1", "+", "set"],
       ["pioreactor", "unit1", "exp1", "job1", "target_od", "set"]] =
      Except.error "found equivalent pair of subs with same callback" ∧
    subscribe_and_callback {} "set_attr_from_message"
      [["pioreactor", "unit1", "exp1", "job1", "+", "set"],
       ["pioreactor", "unit1", "exp1", "job1", "target_od", "set"]] =
      Except.ok
        { callbacks :=
            [(["pioreactor", "unit1", "exp1", "job1", "+", "set"],
              "set_attr_from_message"),
             (["pioreactor", "unit1", "exp1", "job1", "target_od", "set"],
              "set_attr_from_message")] } ∧
    deliver
      { callbacks :=
          [(["pioreactor", "unit1", "exp1", "job1", "+", "set"],
            "set_attr_from_message"),
           (["pioreactor", "unit1", "exp1", "job1", "target_od", "set"],
            "set_attr_from_message")] }
      ["pioreactor", "unit1", "exp1", "job1", "target_od", "set"] =
      ["set_attr_from_message", "set_attr_from_message"] :=
  ⟨rfl, rfl, rfl, rfl, rfl⟩

/-- The Python exception kinds relevant to attribute coercion. -/
inductive PyError
  | typeError
  | valueError
deriving DecidableEq

/-- Runtime values of editable settings: the Python types that occur as
previous attribute values (`str`, `int`, `float`, `bool`, `None`). -/
inductive PyValue
  | pystr (s : String)
  | pyint (n : ℤ)
  | pyfloat (q : ℚ)
  | pybool (b : Bool)
  | pynone
deriving DecidableEq

/-- Numeric value of a digit list. -/
def digitsVal (ds : List Char) : ℕ :=
  ds.foldl (fun n c => 10 * n + (c.toNat - 48)) 0

/-- Models the Python builtin `int(s)` on decimal literals: an optional
sign followed by one or more digits; anything else raises
`ValueError`. -/
def parsePyInt (s : String) : Option ℤ :=
  let core : List Char → Option ℤ := fun ds =>
    if ds.isEmpty || !ds.all Char.isDigit then none
    else some (digitsVal ds : ℤ)
  match s.data with
  | '-' :: rest => (core rest).map (fun n => -n)
  | '+' :: rest => core rest
  | rest => core rest

/-- Models the Python builtin `float(s)` on plain decimal literals:
optional sign, digits, optional `.` and fraction digits (at least one
digit overall); other strings raise `ValueError`. -/
def parsePyFloat (s : String) : Option ℚ :=
  let core : List Char → Option ℚ := fun cs =>
    match cs.span Char.isDigit with
    | (intPart, rest) =>
      match rest with
      | [] =>
        if intPart.isEmpty then none else some (digitsVal intPart : ℚ)
      | '.' :: frac =>
        if frac.all Char.isDigit && !(intPart.isEmpty && frac.isEmpty) then
          some ((digitsVal intPart : ℚ) +
            (digitsVal frac : ℚ) / (10 : ℚ) ^ frac.length)
        else none
      | _ => none
  match s.data with
  | '-' :: rest => (core rest).map (fun q => -q)
  | '+' :: rest => core rest
  | rest => core rest

/-- `type(previous_value)(new_value)` (base.py line 296) for the value
kinds occurring as editable settings: `str(s)` echoes the string,
`int(s)` / `float(s)` parse decimal literals and raise `ValueError`
otherwise, `bool(s)` is truthiness (`s != ""`), and `NoneType(s)`
raises `TypeError`. -/
def coerceToTypeOf (previous_value : PyValue) (new_value : String) :
    Except PyError PyValue :=
  match previous_value with
  | PyValue.pystr _ => Except.ok (PyValue.pystr new_value)
  | PyValue.pyint _ =>
    match parsePyInt new_value with
    | some n => Except.ok (PyValue.pyint n)
    | none => Except.error PyError.valueError
  | PyValue.pyfloat _ =>
    match parsePyFloat new_value with
    | some q => Except.ok (PyValue.pyfloat q)
    | none => Except.error PyError.valueError
  | PyValue.pybool _ => Except.ok (PyValue.pybool (!new_value.isEmpty))
  | PyValue.pynone => Except.error PyError.typeError

/-- Attribute dictionary lookup (`getattr`). -/
def lookupAttr : List (String × PyValue) → String → Option PyValue
  | [], _ => none
  | (k, v) :: rest, attr => if k = attr then some v else lookupAttr rest attr

/-- Python `"…".lstrip("$")`: drop every leading `$`. -/
def lstripDollar (s : String) : String :=
  String.mk (s.data.dropWhile (fun c => c == '$'))

/-- The observable outcome of one `set_attr_from_message` call. -/
inductive SetAttrResult
  | ignored
  | attr_missing
  | hook_called (hook payload : String)
  | assigned (attr : String) (value : PyValue)
  | raised (e : PyError)
deriving DecidableEq

/-- `BackgroundJob.set_attr_from_message` (base.py lines 276-302).
`topic_attr` is the fifth topic level of `…/<attr>/set` (from
`split_topic_for_setting`) and `payload` the decoded payload;
`editable_settings`, the attribute dictionary `attrs`, and the method
names `hook_names` (for `hasattr(self, "set_" + attr)`) stand for the
job instance.  Matching the source: an attr not in `editable_settings`
is silently ignored; a missing attribute trips the `assert hasattr`;
a `set_<attr>` hook is called with the raw string; otherwise the
payload is coerced to the type of the previous value, and only
`TypeError` is caught (line 297) — the raw string is then assigned —
while a `ValueError` propagates out of the handler. -/
def set_attr_from_message (editable_settings hook_names : List String)
    (attrs : List (String × PyValue)) (topic_attr payload : String) :
    SetAttrResult :=
  let attr := lstripDollar topic_attr
  if attr ∈ editable_settings then
    match lookupAttr attrs attr with
    | none => SetAttrResult.attr_missing
    | some previous_value =>
      if ("set_" ++ attr) ∈ hook_names then
        SetAttrResult.hook_called ("set_" ++ attr) payload
      else
        match coerceToTypeOf previous_value payload with
        | Except.ok v => SetAttrResult.assigned attr v
        | Except.error PyError.typeError =>
          SetAttrResult.assigned attr (PyValue.pystr payload)
        | Except.error PyError.valueError =>
          SetAttrResult.raised PyError.valueError
  else
    SetAttrResult.ignored

/-- C8 (amended): for a message on `…/<attr>/set` — `attr` being the
topic segment with leading `$` stripped — if `attr` is not in
`editable_settings` the message is silently ignored and no attribute
changes; if `attr` is editable, present, and has no `set_<attr>` hook,
a successful coercion assigns the coerced value, a coercion failing
with `TypeError` assigns the raw payload string without raising, but a
coercion failing with `ValueError` (e.g. an `int`/`float` attribute
with a non-numeric payload) propagates out of the handler. -/
theorem set_attr_from_message_spec (editable_settings hook_names : List String)
    (attrs : List (String × PyValue)) (topic_attr payload : String)
    (previous_value : PyValue) :
    (lstripDollar topic_attr ∉ editable_settings →
        set_attr_from_message editable_settings hook_names attrs
          topic_attr payload = SetAttrResult.ignored) ∧
    (lstripDollar topic_attr ∈ editable_settings →
     lookupAttr attrs (lstripDollar topic_attr) = some previous_value →
     ("set_" ++ lstripDollar topic_attr) ∉ hook_names →
      ((∀ v, coerceToTypeOf previous_value payload = Except.ok v →
          set_attr_from_message editable_settings hook_names attrs
            topic_attr payload =
            SetAttrResult.assigned (lstripDollar topic_attr) v) ∧
       (coerceToTypeOf previous_value payload =
            Except.error PyError.typeError →
          set_attr_from_message editable_settings hook_names attrs
            topic_attr payload =
            SetAttrResult.assigned (lstripDollar topic_attr)
              (PyValue.pystr payload)) ∧
       (coerceToTypeOf previous_value payload =
            Except.error PyError.valueError →
          set_attr_from_message editable_settings hook_names attrs
            topic_attr payload =
            SetAttrResult.raised PyError.valueError))) := by
  constructor
  · intro h
    simp only [set_attr_from_message]
    rw [if_neg h]
  · intro hmem hlook hhook
    refine ⟨?_, ?_, ?_⟩
    · intro v hv
      simp [set_attr_from_message, hmem, hlook, hhook, hv]
    · intro hv
      simp [set_attr_from_message, hmem, hlook, hhook, hv]
    · intro hv
      simp [set_attr_from_message, hmem, hlook, hhook, hv]

/-- Witness for `set_attr_from_message_spec` at concrete messages: an
unknown attribute is ignored; `volume = "2"` coerces to the float `2`;
`state` (current value `None`) gets the raw string on `TypeError`; and
`volume = "abc"` raises `ValueError`. -/
theorem set_attr_from_message_spec_witness :
    set_attr_from_message ["volume"] [] [] "other" "x" =
      SetAttrResult.ignored ∧
    set_attr_from_message ["volume"] [] [("volume", PyValue.pyfloat 1)]
      "volume" "2" =
      SetAttrResult.assigned (lstripDollar "volume") (PyValue.pyfloat 2) ∧
    set_attr_from_message ["state"] [] [("state", PyValue.pynone)]
      "state" "sleeping" =
      SetAttrResult.assigned (lstripDollar "state")
        (PyValue.pystr "sleeping") ∧
    set_attr_from_message ["volume"] [] [("volume", PyValue.pyfloat 1)]
      "volume" "abc" = SetAttrResult.raised PyError.valueError := by
  refine ⟨?_, ?_, ?_, ?_⟩
  · exact (set_attr_from_message_spec ["volume"] [] [] "other" "x"
      PyValue.pynone).1 (by decide)
  · exact ((set_attr_from_message_spec ["volume"] []
      [("volume", PyValue.pyfloat 1)] "volume" "2"
      (PyValue.pyfloat 1)).2 (by decide) (by decide) (by decide)).1
      (PyValue.pyfloat 2) (by decide)
  · exact ((set_attr_from_message_spec ["state"] []
      [("state", PyValue.pynone)] "state" "sleeping"
      PyValue.pynone).2 (by decide) (by decide) (by decide)).2.1 (by decide)
  · exact ((set_attr_from_message_spec ["volume"] []
      [("volume", PyValue.pyfloat 1)] "volume" "abc"
      (PyValue.pyfloat 1)).2 (by decide) (by decide) (by decide)).2.2
      (by decide)

/-- C8 counterexample: `volume` is editable with a float current value;
the payload `"not_a_number"` fails coercion, yet instead of assigning
the raw string the handler raises — only `TypeError` is caught and
`float("not_a_number")` raises `ValueError` — refuting "if coercing
fails, the raw string is assigned and the handler does not raise". -/
theorem set_attr_value_error_cx :
    coerceToTypeOf (PyValue.pyfloat 1) "not_a_number" =
      Except.error PyError.valueError ∧
    set_attr_from_message ["volume"] [] [("volume", PyValue.pyfloat 1)]
      "volume" "not_a_number" = SetAttrResult.raised PyError.valueError ∧
    set_attr_from_message ["volume"] [] [("volume", PyValue.pyfloat 1)]
      "volume" "not_a_number" ≠
      SetAttrResult.assigned "volume" (PyValue.pystr "not_a_number") := by
  refine ⟨by decide, by decide, by decide⟩

end Pioreactor
